import Mathlib

/-!
Verification of the alien-blast game core against its specification.

The simulation tick (`src/src/components/GameCanvas.tsx`, `updateGame`) is
embedded over `ℚ`: JavaScript numbers are modelled as exact rationals, and the
comparison `Math.hypot(dx, dy) < r` is encoded as `0 < r ∧ dx^2 + dy^2 < r^2`,
which is equivalent for every real input.  The randomness consumed by
`createParticles` is abstracted into an oracle `BurstFn` standing for one call
to `createParticles` (position, colour, raw count); no claim inspects the
produced particles beyond how the tick threads them.  The trigonometric parts
of the code (`createProjectile` in the game-state hook, `spawnEnemy`) are
embedded over `ℝ` with `Math.atan2 y x` modelled as `Complex.arg ⟨x, y⟩`.
-/

/-- Player record from `src/src/types/game.ts`. -/
structure PlayerQ where
  x : ℚ
  y : ℚ
  radius : ℚ
  color : String
deriving DecidableEq

/-- Projectile record from `src/src/types/game.ts` (velocity flattened). -/
structure ProjQ where
  x : ℚ
  y : ℚ
  radius : ℚ
  color : String
  vx : ℚ
  vy : ℚ
deriving DecidableEq

/-- Enemy record from `src/src/types/game.ts` (velocity flattened). -/
structure EnemyQ where
  x : ℚ
  y : ℚ
  radius : ℚ
  color : String
  vx : ℚ
  vy : ℚ
deriving DecidableEq

/-- Particle record from `src/src/types/game.ts` (velocity flattened). -/
structure ParticleQ where
  x : ℚ
  y : ℚ
  radius : ℚ
  color : String
  vx : ℚ
  vy : ℚ
  alpha : ℚ
deriving DecidableEq

/-- GameState record from `src/src/types/game.ts`. -/
structure GameStateQ where
  isRunning : Bool
  score : ℚ
  level : ℤ
  player : PlayerQ
  projectiles : List ProjQ
  enemies : List EnemyQ
  particles : List ParticleQ
deriving DecidableEq

/-- Randomness oracle for one `createParticles(x, y, color, count)` call
(`GameCanvas.tsx` lines 76-92); the produced burst depends on `Math.random()`
draws which the oracle fixes. -/
def BurstFn : Type := ℚ → ℚ → String → ℚ → List ParticleQ

/-- Trivial burst oracle (empty particle bursts), used for concrete runs. -/
def burst0 : BurstFn := fun _ _ _ _ => []

/-- Exact encoding of `Math.hypot dx dy < r`: true iff `0 < r` and
`dx^2 + dy^2 < r^2` (equivalent over the reals since `hypot ≥ 0`). -/
def hypLt (dx dy r : ℚ) : Bool :=
  decide (0 < r) && decide (dx ^ 2 + dy ^ 2 < r ^ 2)

/-- One particle update of the particle pass (`GameCanvas.tsx` lines 130-151):
velocity is damped by `0.99` per axis, the position advances by the damped
velocity, alpha decreases by `0.01`. -/
def stepParticle (p : ParticleQ) : ParticleQ :=
  { p with
    vx := p.vx * (99 / 100)
    vy := p.vy * (99 / 100)
    x := p.x + p.vx * (99 / 100)
    y := p.y + p.vy * (99 / 100)
    alpha := p.alpha - 1 / 100 }

/-- Particle pass of `updateGame`: update every particle and keep those with
`alpha > 0`. -/
def particlePhase (s : GameStateQ) : GameStateQ :=
  { s with
    particles := (s.particles.map stepParticle).filter fun p =>
      decide (0 < p.alpha) }

/-- One projectile move of the projectile pass (`GameCanvas.tsx`
lines 154-172). -/
def stepProj (p : ProjQ) : ProjQ :=
  { p with x := p.x + p.vx, y := p.y + p.vy }

/-- Projectile pass of `updateGame`: move every projectile and keep those
strictly inside the `(0, w) × (0, h)` viewport. -/
def projPhase (w h : ℚ) (s : GameStateQ) : GameStateQ :=
  { s with
    projectiles := (s.projectiles.map stepProj).filter fun p =>
      decide (0 < p.x) && decide (p.x < w) && decide (0 < p.y) &&
        decide (p.y < h) }

/-- `distance < enemy.radius + projectile.radius` collision test of the
projectile filter inside the enemy pass (`GameCanvas.tsx` lines 198-204). -/
def collideB (pr : ProjQ) (e : EnemyQ) : Bool :=
  hypLt (pr.x - e.x) (pr.y - e.y) (e.radius + pr.radius)

/-- Result of filtering the projectile collection against one enemy. -/
structure HitAcc where
  projs : List ProjQ
  enemy : EnemyQ
  hit : Bool
  scoreDelta : ℚ
  parts : List ParticleQ
deriving DecidableEq

/-- The `newProjectiles.filter(...)` pass over one enemy (`GameCanvas.tsx`
lines 197-226).  The filter callback runs on every projectile in order; each
colliding projectile is dropped, spawns a burst of `enemy.radius * 2` raw
count at the projectile position, and either shrinks the enemy by 8 and adds
10 to the score (current radius above 15) or adds 20 (current radius at most
15).  Note the enemy radius mutation is visible to the later projectiles of
the same pass, exactly as the in-place `enemy.radius -= 8` is in the source. -/
def hitPass (burst : BurstFn) (e : EnemyQ) : List ProjQ → HitAcc
  | [] => { projs := [], enemy := e, hit := false, scoreDelta := 0, parts := [] }
  | pr :: rest =>
    if collideB pr e then
      let shot := burst pr.x pr.y e.color (e.radius * 2)
      if 15 < e.radius then
        let acc := hitPass burst { e with radius := e.radius - 8 } rest
        { projs := acc.projs, enemy := acc.enemy, hit := true,
          scoreDelta := 10 + acc.scoreDelta, parts := shot ++ acc.parts }
      else
        let acc := hitPass burst e rest
        { projs := acc.projs, enemy := acc.enemy, hit := true,
          scoreDelta := 20 + acc.scoreDelta, parts := shot ++ acc.parts }
    else
      let acc := hitPass burst e rest
      { projs := pr :: acc.projs, enemy := acc.enemy, hit := acc.hit,
        scoreDelta := acc.scoreDelta, parts := acc.parts }

/-- The `for (const enemy of prev.enemies)` loop of the enemy pass
(`GameCanvas.tsx` lines 175-255).  Each enemy first moves in place; if it then
overlaps the player (`distance < enemy.radius + player.radius - 5`) the
updater returns its input object `prev` — which, because the moves and radius
decrements are in-place mutations, carries the already-processed enemies in
their mutated form (`doneMut`), the current enemy moved, and the rest
untouched, while score, level, projectiles and particles of `base` are
unchanged.  Otherwise the projectile filter runs and the enemy is kept iff it
was not hit or its (post-decrement) radius still exceeds 15; the source checks
this condition twice with identical meaning. -/
def enemyLoop (burst : BurstFn) (pl : PlayerQ) (base : GameStateQ)
    (doneMut newEs : List EnemyQ) (projs : List ProjQ)
    (parts : List ParticleQ) (score : ℚ) :
    List EnemyQ → Except GameStateQ GameStateQ
  | [] =>
    Except.ok
      { base with
        enemies := newEs.reverse
        projectiles := projs
        particles := parts
        score := score
        level := min 9 (Int.floor (score / 500) + 1) }
  | e :: rest =>
    let e1 : EnemyQ := { e with x := e.x + e.vx, y := e.y + e.vy }
    if hypLt (pl.x - e1.x) (pl.y - e1.y) (e1.radius + pl.radius - 5) then
      Except.error { base with enemies := doneMut.reverse ++ e1 :: rest }
    else
      let r := hitPass burst e1 projs
      enemyLoop burst pl base (r.enemy :: doneMut)
        (if !r.hit || decide (15 < r.enemy.radius) then r.enemy :: newEs
         else newEs)
        r.projs (parts ++ r.parts) (score + r.scoreDelta) rest

/-- Enemy pass of `updateGame`: run the enemy loop from the phase input state;
`Except.error` signals the `onGameEnd` (GameOver) call together with the state
value the updater returns. -/
def enemyPhase (burst : BurstFn) (p : GameStateQ) :
    Except GameStateQ GameStateQ :=
  enemyLoop burst p.player p [] [] p.projectiles p.particles p.score p.enemies

/-- One full simulation tick of `updateGame`: the particle pass, the
projectile pass and the enemy pass are three separate state updates applied in
this order within one animation frame. -/
def tick (w h : ℚ) (burst : BurstFn) (s : GameStateQ) :
    Except GameStateQ GameStateQ :=
  enemyPhase burst (projPhase w h (particlePhase s))

/-- `endGame` from the game-state hook: sets `isRunning` to `false` and keeps
every other field (the timer cancellations it also performs are external). -/
def endGame (s : GameStateQ) : GameStateQ :=
  { s with isRunning := false }

/-- One run of the firing effect in `App` (`src/unnamed/part_000` lines
43-58), with `FRAMES_TO_FIRE = 6`: given the running flag, the detection flag,
the mouth-open flag and the consecutive counter, returns the new counter and
whether a projectile was fired this tick. -/
def fireStep (isRunning isDetected isMouthOpen : Bool) (count : ℕ) :
    ℕ × Bool :=
  if isRunning && isDetected then
    if isMouthOpen then
      if 6 ≤ count + 1 then (0, true) else (count + 1, false)
    else (0, false)
  else (count, false)

/-- Fold of `fireStep` over a list of `(running, detected, mouthOpen)` tick
inputs, returning the final counter and the number of fire events emitted. -/
def fireRun : List (Bool × Bool × Bool) → ℕ → ℕ × ℕ
  | [], c => (c, 0)
  | i :: rest, c =>
    let st := fireStep i.1 i.2.1 i.2.2 c
    let next := fireRun rest st.1
    (next.1, (if st.2 then 1 else 0) + next.2)

/-- A 2-D point of the aim-conditioning pipeline. -/
structure MovePt where
  x : ℚ
  y : ℚ
deriving DecidableEq

/-- `detectMovement` (the smoothing variant of the face-detection hook,
`src/unnamed/part_003` lines 85-111).  State is `none` before the anchor is
recorded, else `some (startPoint, prevPoint)`.  The first sample becomes both
anchor and output; later samples scale the displacement from the anchor by
`movementScale`, then blend the previous output toward the target with
smoothing factor `0.7`. -/
def detectMovement (movementScale : ℚ) (newPoint : MovePt) :
    Option (MovePt × MovePt) → Option (MovePt × MovePt) × MovePt
  | none => (some (newPoint, newPoint), newPoint)
  | some (startPoint, prevPoint) =>
    let newX := (newPoint.x - startPoint.x) * movementScale
    let newY := (newPoint.y - startPoint.y) * movementScale
    let target : MovePt := ⟨startPoint.x + newX, startPoint.y + newY⟩
    let next : MovePt :=
      ⟨prevPoint.x * (1 - 7 / 10) + target.x * (7 / 10),
       prevPoint.y * (1 - 7 / 10) + target.y * (7 / 10)⟩
    (some (startPoint, next), next)

/-- `Math.max(0, Math.min(1, v))` clamp used when `processFrame` publishes the
aim coordinate (`src/unnamed/part_003` lines 217-222). -/
def clamp01 (v : ℚ) : ℚ := max 0 (min 1 v)

/-- Emission step of `processFrame` on a movement output: mirror the x axis
(`1 - movement.x`) and clamp both coordinates to `[0, 1]`. -/
def emitAim (m : MovePt) : MovePt := ⟨clamp01 (1 - m.x), clamp01 m.y⟩

/-- Mouth-calibration state of the face-detection hook
(`src/src/hooks/useFaceDetection.ts` lines 21-24). -/
structure MouthState where
  baseline : Option ℚ
  history : List ℚ
deriving DecidableEq

/-- Initial mouth-calibration state: no baseline, empty history. -/
def mouthInit : MouthState := ⟨none, []⟩

/-- `Math.min(...)` over a sample list (total; only applied to full windows
in the source). -/
def minList : List ℚ → ℚ
  | [] => 0
  | x :: xs => xs.foldl min x

/-- `detectMouthOpen` (`src/src/hooks/useFaceDetection.ts` lines 82-112)
restricted to its calibration state: the mouth distance `d` is pushed onto the
history, the history is trimmed to the last `10` samples, the baseline is set
to the minimum of the window the first time the window is full while no
baseline exists, and the returned flag is `d > baseline * 2.2` once a baseline
exists, else `d > 0.018`. -/
def detectMouthOpen (d : ℚ) (st : MouthState) : MouthState × Bool :=
  let pushed := st.history ++ [d]
  let trimmed := if 10 < pushed.length then pushed.tail else pushed
  let base :=
    if 10 ≤ trimmed.length && st.baseline.isNone then some (minList trimmed)
    else st.baseline
  (⟨base, trimmed⟩,
   match base with
   | some b => decide (b * (22 / 10) < d)
   | none => decide (18 / 1000 < d))

/-- Fold of the mouth-calibration state over a list of distance samples. -/
def mouthRun (ds : List ℚ) (st : MouthState) : MouthState :=
  ds.foldl (fun s d => (detectMouthOpen d s).1) st

/-- The last `n` elements of a list (the contents of a rolling window). -/
def lastN (n : ℕ) (l : List ℚ) : List ℚ := (l.reverse.take n).reverse

/-- Player record over `ℝ` (for the trigonometric parts of the code). -/
structure PlayerR where
  x : ℝ
  y : ℝ
  radius : ℝ
  color : String

/-- Projectile record over `ℝ`. -/
structure ProjR where
  x : ℝ
  y : ℝ
  radius : ℝ
  color : String
  vx : ℝ
  vy : ℝ

/-- Enemy record over `ℝ`; the `hsl(...)` colour string is presentation-only,
so only its hue draw is kept. -/
structure EnemyR where
  x : ℝ
  y : ℝ
  radius : ℝ
  hue : ℝ
  vx : ℝ
  vy : ℝ

/-- GameState record over `ℝ`. -/
structure GameStateR where
  isRunning : Bool
  score : ℝ
  level : ℤ
  player : PlayerR
  projectiles : List ProjR
  enemies : List EnemyR
  particles : List ParticleQ

/-- `Math.atan2 y x` as the argument of the complex number `x + y·i`. -/
noncomputable def atan2 (y x : ℝ) : ℝ := Complex.arg ⟨x, y⟩

/-- `createProjectile` from the game-state hook (`src/unnamed/part_001` lines
61-86): appends one projectile at the player position with velocity
`(cos θ · 6, sin θ · 6)` toward the target, and decrements the score by 1
clamped at 0.  The level field is not touched. -/
noncomputable def createProjectile (targetX targetY : ℝ) (s : GameStateR) :
    GameStateR :=
  let angle := atan2 (targetY - s.player.y) (targetX - s.player.x)
  let np : ProjR :=
    { x := s.player.x, y := s.player.y, radius := 5, color := "#00ff88",
      vx := Real.cos angle * 6, vy := Real.sin angle * 6 }
  { s with
    projectiles := s.projectiles ++ [np]
    score := max 0 (s.score - 1) }

/-- `spawnEnemy` (`GameCanvas.tsx` lines 39-74) as a function of its four
uniform draws `u1..u4 ∈ [0, 1)` (radius, edge-orientation branch, and the two
draws inside the chosen branch in call order) plus the hue draw `uh` and the
viewport size.  The enemy spawns on one of the four edges offset outward by
its own radius, with unit-speed velocity toward the viewport centre. -/
noncomputable def spawnEnemy (u1 u2 u3 u4 uh w h : ℝ) : EnemyR :=
  let radius := u1 * 20 + 10
  let x := if u2 < 1 / 2 then (if u3 < 1 / 2 then -radius else w + radius)
           else u3 * w
  let y := if u2 < 1 / 2 then u4 * h
           else (if u4 < 1 / 2 then -radius else h + radius)
  let angle := atan2 (h / 2 - y) (w / 2 - x)
  { x := x, y := y, radius := radius, hue := uh * 360,
    vx := Real.cos angle * 1, vy := Real.sin angle * 1 }

/-- The `gameLevels` spawn-interval table (`GameCanvas.tsx` lines 34-37) with
the `|| gameLevels.other` fallback of line 276. -/
def spawnInterval (level : ℤ) : ℕ :=
  if level = 1 then 3000
  else if level = 2 then 2500
  else if level = 3 then 2000
  else if level = 4 then 1500
  else if level = 5 then 1200
  else if level = 6 then 1000
  else if level = 7 then 800
  else if level = 8 then 600
  else if level = 9 then 500
  else 400

/-- Pre-tick state for the game-over counterexample: one enemy one step away
from overlapping the player, one live particle. -/
def c1s : GameStateQ :=
  { isRunning := true, score := 0, level := 1,
    player := ⟨105, 0, 20, "#ffffff"⟩,
    projectiles := [], enemies := [⟨100, 0, 20, "red", 1, 0⟩],
    particles := [] }

/-- State actually returned by the tick on `c1s`: the enemy has already been
moved in place when game over fires. -/
def c1err : GameStateQ :=
  { c1s with enemies := [⟨101, 0, 20, "red", 1, 0⟩] }

/-- Pre-tick state for the multi-hit counterexample: one small enemy with two
projectiles at its centre. -/
def c2s : GameStateQ :=
  { isRunning := true, score := 0, level := 1,
    player := ⟨1000, 0, 20, "#ffffff"⟩,
    projectiles := [⟨50, 50, 5, "#00ff88", 0, 0⟩, ⟨50, 50, 5, "#00ff88", 0, 0⟩],
    enemies := [⟨50, 50, 10, "red", 0, 0⟩],
    particles := [] }

/-- Concrete enemy/projectiles for the multi-hit witness. -/
def c2wEnemy : EnemyQ := ⟨50, 50, 30, "red", 0, 0⟩

/-- First witness projectile (at the enemy centre). -/
def c2wProj1 : ProjQ := ⟨50, 50, 5, "#00ff88", 0, 0⟩

/-- Second witness projectile (at the enemy centre as well). -/
def c2wProj2 : ProjQ := ⟨50, 50, 5, "#00ff88", 0, 0⟩

/-- Pre-tick state for the shrink-survival bug: one enemy of radius 20, one
projectile at its centre. -/
def c3s : GameStateQ :=
  { isRunning := true, score := 0, level := 1,
    player := ⟨1000, 0, 20, "#ffffff"⟩,
    projectiles := [⟨50, 50, 5, "#00ff88", 0, 0⟩],
    enemies := [⟨50, 50, 20, "red", 0, 0⟩],
    particles := [] }

/-- Post-tick state on `c3s`: the enemy got the +10 shrink score but was
dropped anyway. -/
def c3t : GameStateQ :=
  { isRunning := true, score := 10, level := 1,
    player := ⟨1000, 0, 20, "#ffffff"⟩,
    projectiles := [], enemies := [], particles := [] }

/-- Real-valued state with `score = 500`, `level = 2` (exactly what a tick
commits at score 500), used for the fire-cost level counterexample. -/
noncomputable def c4s : GameStateR :=
  { isRunning := true, score := 500, level := 2,
    player := ⟨400, 300, 20, "#ffffff"⟩,
    projectiles := [], enemies := [], particles := [] }

/-- Empty running state used for the level-invariant witness. -/
def c4w : GameStateQ :=
  { isRunning := true, score := 0, level := 1,
    player := ⟨400, 300, 20, "#ffffff"⟩,
    projectiles := [], enemies := [], particles := [] }

/-- The state the tick commits on `c4w`. -/
def c4wt : GameStateQ :=
  { c4w with level := min 9 (Int.floor ((0 : ℚ) / 500) + 1) }

/-- Real-valued state with the player at the origin and score 0, for the
fire-event witness. -/
noncomputable def c8s : GameStateR :=
  { isRunning := true, score := 0, level := 1,
    player := ⟨0, 0, 20, "#ffffff"⟩,
    projectiles := [], enemies := [], particles := [] }

/-- State the tick commits on `c2s`: both projectiles consumed by the one
small enemy, each awarding the +20 removal score. -/
def c2t : GameStateQ :=
  { c2s with projectiles := [], enemies := [], score := 40,
             level := min 9 (Int.floor ((40 : ℚ) / 500) + 1) }

/-- Mouth-calibration state after ten closed-mouth samples of `0.01`. -/
def c7base : MouthState := mouthRun (List.replicate 10 (1 / 100)) mouthInit

/-- Helper: whatever state the enemy loop returns with the GameOver signal is
the loop's base state with only the enemies field replaced (by the partially
mutated enemy array). -/
theorem enemyLoop_error_shape (burst : BurstFn) (pl : PlayerQ)
    (base : GameStateQ) (rest : List EnemyQ) :
    ∀ (dm ne : List EnemyQ) (pj : List ProjQ) (pa : List ParticleQ) (sc : ℚ)
      (t : GameStateQ),
      enemyLoop burst pl base dm ne pj pa sc rest = Except.error t →
      ∃ es, t = { base with enemies := es } := by
  induction rest with
  | nil =>
    intro dm ne pj pa sc t ht
    simp [enemyLoop] at ht
  | cons e rest ih =>
    intro dm ne pj pa sc t ht
    rw [enemyLoop] at ht
    split at ht
    · injection ht with h2
      exact ⟨_, h2.symm⟩
    · exact ih _ _ _ _ _ t ht

/-- Helper: whatever state the enemy loop commits (no game over) carries a
level recomputed from the committed score. -/
theorem enemyLoop_ok_level (burst : BurstFn) (pl : PlayerQ)
    (base : GameStateQ) (rest : List EnemyQ) :
    ∀ (dm ne : List EnemyQ) (pj : List ProjQ) (pa : List ParticleQ) (sc : ℚ)
      (t : GameStateQ),
      enemyLoop burst pl base dm ne pj pa sc rest = Except.ok t →
      t.level = min 9 (Int.floor (t.score / 500) + 1) := by
  induction rest with
  | nil =>
    intro dm ne pj pa sc t ht
    rw [enemyLoop] at ht
    cases ht
    rfl
  | cons e rest ih =>
    intro dm ne pj pa sc t ht
    rw [enemyLoop] at ht
    split at ht
    · cases ht
    · exact ih _ _ _ _ _ t ht

/-- Claim C1 (counterexample): a tick in which an enemy reaches the player
signals GameOver, but the state handed back is not the pre-tick state — the
enemy has already been moved in place when the collision is detected. -/
theorem c1_gameover_counterexample :
    tick 800 600 burst0 c1s = Except.error c1err ∧ c1err ≠ c1s := by
  constructor
  · norm_num [tick, enemyPhase, particlePhase, projPhase, enemyLoop, hitPass,
      hypLt, c1s, c1err, stepParticle, stepProj, collideB, burst0]
  · intro hEq
    have : c1err.enemies = c1s.enemies := by rw [hEq]
    simp [c1err, c1s] at this

/-- Claim C1 (amended): when the enemy pass fires GameOver, the returned
state keeps the pre-tick score, level, player and running flag, and its
projectile and particle collections are the outputs of the particle and
projectile passes already applied earlier in the same tick (not the pre-tick
collections). -/
theorem c1_gameover_discards (w h : ℚ) (burst : BurstFn) (s t : GameStateQ)
    (hg : tick w h burst s = Except.error t) :
    t.score = s.score ∧ t.level = s.level ∧ t.player = s.player ∧
    t.isRunning = s.isRunning ∧
    t.projectiles = (projPhase w h (particlePhase s)).projectiles ∧
    t.particles = (particlePhase s).particles := by
  obtain ⟨es, rfl⟩ :=
    enemyLoop_error_shape burst (projPhase w h (particlePhase s)).player
      (projPhase w h (particlePhase s))
      (projPhase w h (particlePhase s)).enemies _ _ _ _ _ t hg
  exact ⟨rfl, rfl, rfl, rfl, rfl, rfl⟩

/-- Claim C1 (witness): the amended statement at the concrete game-over
state. -/
theorem c1_gameover_witness :
    tick 800 600 burst0 c1s = Except.error c1err ∧
    c1err.score = c1s.score ∧ c1err.level = c1s.level := by
  have ht : tick 800 600 burst0 c1s = Except.error c1err := by
    norm_num [tick, enemyPhase, particlePhase, projPhase, enemyLoop, hitPass,
      hypLt, c1s, c1err, stepParticle, stepProj, collideB, burst0]
  have hc := c1_gameover_discards 800 600 burst0 c1s c1err ht
  exact ⟨ht, hc.1, hc.2.1⟩

/-- Claim C4 (amended): every committed simulation tick recomputes the level
as `min 9 (floor (score / 500) + 1)` from the score the tick ends with. -/
theorem c4_level_invariant (w h : ℚ) (burst : BurstFn) (s t : GameStateQ)
    (hk : tick w h burst s = Except.ok t) :
    t.level = min 9 (Int.floor (t.score / 500) + 1) :=
  enemyLoop_ok_level burst (projPhase w h (particlePhase s)).player
    (projPhase w h (particlePhase s))
    (projPhase w h (particlePhase s)).enemies _ _ _ _ _ t hk

/-- Claim C4 (witness): the level invariant at a concrete committed tick. -/
theorem c4_level_witness :
    c4wt.level = min 9 (Int.floor (c4wt.score / 500) + 1) :=
  c4_level_invariant 800 600 burst0 c4w c4wt
    (by norm_num [tick, enemyPhase, particlePhase, projPhase, enemyLoop,
      hitPass, hypLt, c4w, c4wt, stepParticle, stepProj, collideB, burst0])

/-- Claim C4 (counterexample): a fire event decrements the score without
recomputing the level, so right after `createProjectile` on a state with
score 500 and level 2 (the values a tick commits at score 500) the claimed
invariant `level = min 9 (floor (score / 500) + 1)` is violated. -/
theorem c4_fire_counterexample :
    (createProjectile 700 300 c4s).level ≠
      min 9 (Int.floor ((createProjectile 700 300 c4s).score / 500) + 1) := by
  have hs : (createProjectile 700 300 c4s).score = 499 := by
    show max 0 ((500 : ℝ) - 1) = 499
    rw [max_eq_right] <;> norm_num
  have hl : (createProjectile 700 300 c4s).level = 2 := rfl
  rw [hs, hl]
  have hf : Int.floor ((499 : ℝ) / 500) = 0 := by
    rw [Int.floor_eq_zero_iff]
    constructor <;> norm_num
  rw [hf]
  norm_num

/-- Claim C3 (code bug, evaluated): an enemy of pre-hit radius 20 hit by one
projectile gets the +10 "shrink" score, yet is dropped from the committed
state because the survival check `enemy.radius > 15` reads the
already-decremented radius 12. -/
theorem c3_shrink_survival_bug :
    tick 800 600 burst0 c3s = Except.ok c3t ∧ c3t.enemies = [] ∧
    c3t.score = 10 := by
  refine ⟨?_, rfl, rfl⟩
  norm_num [tick, enemyPhase, particlePhase, projPhase, enemyLoop, hitPass,
    hypLt, c3s, c3t, stepParticle, stepProj, collideB, burst0]

/-- Claim C2 (counterexample): with two projectiles in range of one enemy of
radius 10 in the same tick, the filter pass consumes both of them (the enemy
radius is unchanged in the `≤ 15` branch, so the second projectile still
collides) and the +20 score is awarded twice — the later projectile is not
unaffected as claimed. -/
theorem c2_multihit_counterexample :
    tick 800 600 burst0 c2s = Except.ok c2t ∧ c2t.projectiles = [] ∧
    c2t.score = 40 := by
  refine ⟨?_, rfl, rfl⟩
  norm_num [tick, enemyPhase, particlePhase, projPhase, enemyLoop, hitPass,
    hypLt, c2s, c2t, stepParticle, stepProj, collideB, burst0]

/-- Claim C2 (amended): in one tick's filter pass over one enemy, the first
in-range projectile is always consumed; a later in-range projectile is also
consumed in the same pass if and only if it is still within collision range of
the enemy radius as mutated by the earlier hit (in particular always, when the
enemy radius was at most 15 and therefore unchanged), accumulating a score
increment per hit. -/
theorem c2_multihit_amended (burst : BurstFn) (e : EnemyQ) (p1 p2 : ProjQ)
    (h1 : collideB p1 e = true) (h2 : collideB p2 e = true) :
    (¬ 15 < e.radius →
      (hitPass burst e [p1, p2]).projs = [] ∧
      (hitPass burst e [p1, p2]).scoreDelta = 40 ∧
      (hitPass burst e [p1, p2]).enemy = e) ∧
    (15 < e.radius → collideB p2 { e with radius := e.radius - 8 } = false →
      (hitPass burst e [p1, p2]).projs = [p2] ∧
      (hitPass burst e [p1, p2]).scoreDelta = 10 ∧
      (hitPass burst e [p1, p2]).enemy = { e with radius := e.radius - 8 }) ∧
    (15 < e.radius → collideB p2 { e with radius := e.radius - 8 } = true →
      15 < e.radius - 8 →
      (hitPass burst e [p1, p2]).projs = [] ∧
      (hitPass burst e [p1, p2]).scoreDelta = 20 ∧
      (hitPass burst e [p1, p2]).enemy = { e with radius := e.radius - 16 }) ∧
    (15 < e.radius → collideB p2 { e with radius := e.radius - 8 } = true →
      ¬ 15 < e.radius - 8 →
      (hitPass burst e [p1, p2]).projs = [] ∧
      (hitPass burst e [p1, p2]).scoreDelta = 30 ∧
      (hitPass burst e [p1, p2]).enemy = { e with radius := e.radius - 8 }) := by
  refine ⟨?_, ?_, ?_, ?_⟩
  · intro hr
    norm_num [hitPass, h1, h2, hr]
  · intro hr hc2
    norm_num [hitPass, h1, h2, hr, hc2]
  · intro hr hc2 hr8
    norm_num [hitPass, h1, h2, hr, hc2, hr8]
    ring
  · intro hr hc2 hr8
    norm_num [hitPass, h1, h2, hr, hc2, hr8]

/-- Claim C2 (witness): the amended multi-hit behaviour at a concrete
radius-30 enemy with two projectiles at its centre (both hits land, the
radius drops by 16, the score gains 20). -/
theorem c2_multihit_witness :
    (hitPass burst0 c2wEnemy [c2wProj1, c2wProj2]).projs = [] ∧
    (hitPass burst0 c2wEnemy [c2wProj1, c2wProj2]).scoreDelta = 20 ∧
    (hitPass burst0 c2wEnemy [c2wProj1, c2wProj2]).enemy =
      { c2wEnemy with radius := c2wEnemy.radius - 16 } :=
  (c2_multihit_amended burst0 c2wEnemy c2wProj1 c2wProj2
      (by norm_num [collideB, hypLt, c2wEnemy, c2wProj1])
      (by norm_num [collideB, hypLt, c2wEnemy, c2wProj2])).2.2.1
    (by norm_num [c2wEnemy])
    (by norm_num [collideB, hypLt, c2wEnemy, c2wProj2])
    (by norm_num [c2wEnemy])

/-- Helper: over a run of ticks that are all running, detected and mouth-open,
the fire counter cycles with period 6 and one fire event is emitted per full
period. -/
theorem fireRun_replicate_open (n c : ℕ) (hc : c < 6) :
    fireRun (List.replicate n (true, true, true)) c =
      ((c + n) % 6, (c + n) / 6) := by
  induction n generalizing c with
  | zero =>
    simp [fireRun, Nat.mod_eq_of_lt hc, Nat.div_eq_of_lt hc]
  | succ n ih =>
    rw [List.replicate_succ]
    by_cases h5 : c = 5
    · subst h5
      have h0 : fireStep true true true 5 = (0, true) := by decide
      simp only [fireRun, h0, ih 0 (by omega), Prod.mk.injEq, if_true]
      constructor <;> omega
    · have hlt : c + 1 < 6 := by omega
      have h0 : fireStep true true true c = (c + 1, false) := by
        simp [fireStep]
        omega
      simp only [fireRun, h0, ih (c + 1) hlt, Prod.mk.injEq,
        if_neg Bool.false_ne_true]
      constructor <;> omega

/-- Claim C5 (counterexample): a tick where face detection is lost while the
counter stands at 5 leaves the counter at 5 — it is not reset to zero as the
claim states. -/
theorem c5_reset_counterexample :
    fireStep true false false 5 = (5, false) ∧ (5 : ℕ) ≠ 0 := by
  constructor
  · decide
  · decide

/-- Claim C5 (amended): a running, detected tick with fire-intent false resets
the counter; a tick that is not running or has lost detection leaves the
counter unchanged and fires nothing (partial credit persists across detection
gaps); over consecutive running, detected, mouth-open ticks from a zero
counter, one fire event is emitted exactly every 6 ticks. -/
theorem c5_debounce_amended :
    (∀ c : ℕ, fireStep true true false c = (0, false)) ∧
    (∀ (r d o : Bool) (c : ℕ), (r && d) = false → fireStep r d o c = (c, false)) ∧
    (∀ n : ℕ, fireRun (List.replicate n (true, true, true)) 0 = (n % 6, n / 6)) := by
  refine ⟨?_, ?_, ?_⟩
  · intro c
    simp [fireStep]
  · intro r d o c hrd
    simp [fireStep, hrd]
  · intro n
    simpa using fireRun_replicate_open n 0 (by omega)

/-- Claim C6: from anchor `(0.5, 0.5)`, the raw sample `(0.6, 0.5)` with
sensitivity 4 and one application of the `0.7` exponential smoothing yields
the un-mirrored target `(0.78, 0.5)`; the published aim mirrors the x axis to
`0.22`; and the published coordinates are always clamped to `[0, 1]` on both
axes. -/
theorem c6_aim_conditioning :
    detectMovement 4 ⟨1 / 2, 1 / 2⟩ none =
      (some (⟨1 / 2, 1 / 2⟩, ⟨1 / 2, 1 / 2⟩), ⟨1 / 2, 1 / 2⟩) ∧
    detectMovement 4 ⟨3 / 5, 1 / 2⟩ (some (⟨1 / 2, 1 / 2⟩, ⟨1 / 2, 1 / 2⟩)) =
      (some (⟨1 / 2, 1 / 2⟩, ⟨78 / 100, 1 / 2⟩), ⟨78 / 100, 1 / 2⟩) ∧
    emitAim ⟨78 / 100, 1 / 2⟩ = ⟨22 / 100, 1 / 2⟩ ∧
    (∀ m : MovePt, 0 ≤ (emitAim m).x ∧ (emitAim m).x ≤ 1 ∧
      0 ≤ (emitAim m).y ∧ (emitAim m).y ≤ 1) := by
  refine ⟨?_, ?_, ?_, ?_⟩
  · norm_num [detectMovement]
  · norm_num [detectMovement]
  · norm_num [emitAim, clamp01]
  · intro m
    refine ⟨le_max_left 0 _, ?_, le_max_left 0 _, ?_⟩
    · exact max_le (by norm_num) (min_le_left 1 _)
    · exact max_le (by norm_num) (min_le_left 1 _)

/-- Claim C10: `endGame` clears only the running flag; score, level, player
and the three entity collections are untouched, so the final score and level
stay observable after game over. -/
theorem c10_endGame_frame (s : GameStateQ) :
    (endGame s).isRunning = false ∧ (endGame s).score = s.score ∧
    (endGame s).level = s.level ∧ (endGame s).player = s.player ∧
    (endGame s).projectiles = s.projectiles ∧
    (endGame s).enemies = s.enemies ∧
    (endGame s).particles = s.particles :=
  ⟨rfl, rfl, rfl, rfl, rfl, rfl, rfl⟩

/-- Helper: taking the last `n` elements twice around an append collapses. -/
theorem lastN_absorb (n : ℕ) (l ds : List ℚ) :
    lastN n (lastN n l ++ ds) = lastN n (l ++ ds) := by
  unfold lastN
  simp only [List.reverse_append, List.reverse_reverse,
    List.take_append_eq_append_take, List.take_take, List.length_reverse]
  rw [min_eq_left (Nat.sub_le n ds.length)]

/-- Helper: a list not longer than `n` is its own last-`n` window. -/
theorem lastN_of_le (n : ℕ) (l : List ℚ) (h : l.length ≤ n) : lastN n l = l := by
  unfold lastN
  rw [List.take_of_length_le (by simpa using h), List.reverse_reverse]

/-- Helper: the last-`n` window of an `n+1`-element list is its tail. -/
theorem lastN_tail_of_len (l : List ℚ) (h : l.length = 11) :
    lastN 10 l = l.tail := by
  cases l with
  | nil => simp at h
  | cons a l' =>
    have h10 : l'.length = 10 := by simpa using h
    unfold lastN
    rw [List.reverse_cons, List.take_append_eq_append_take,
      List.take_of_length_le (by simp [h10]), List.length_reverse, h10]
    simp

/-- Helper: the last-`n` window never exceeds `n` elements. -/
theorem lastN_length_le (n : ℕ) (l : List ℚ) : (lastN n l).length ≤ n := by
  unfold lastN
  simp

/-- Helper: one mouth sample turns a window of at most 10 samples into the
last-10 window of the extended history. -/
theorem detectMouthOpen_history (d : ℚ) (st : MouthState)
    (h : st.history.length ≤ 10) :
    ((detectMouthOpen d st).1).history = lastN 10 (st.history ++ [d]) := by
  unfold detectMouthOpen
  by_cases hlen : 10 < (st.history ++ [d]).length
  · have h11 : (st.history ++ [d]).length = 11 := by
      simp only [List.length_append, List.length_singleton]
      simp at hlen
      omega
    simp only [if_pos hlen]
    exact (lastN_tail_of_len _ h11).symm
  · simp only [if_neg hlen]
    rw [lastN_of_le]
    omega

/-- Helper: the rolling history after any sample sequence is the last-10
window of the accumulated samples. -/
theorem mouthRun_history (ds : List ℚ) : ∀ (st : MouthState),
    st.history.length ≤ 10 →
    (mouthRun ds st).history = lastN 10 (st.history ++ ds) := by
  induction ds with
  | nil =>
    intro st h
    simpa [mouthRun] using (lastN_of_le 10 st.history h).symm
  | cons d ds ih =>
    intro st h
    have hstep : mouthRun (d :: ds) st = mouthRun ds ((detectMouthOpen d st).1) :=
      rfl
    rw [hstep, ih ((detectMouthOpen d st).1)
        (by rw [detectMouthOpen_history d st h]; exact lastN_length_le 10 _),
      detectMouthOpen_history d st h, lastN_absorb]
    simp

/-- Helper: an established baseline is never modified by later samples. -/
theorem detectMouthOpen_baseline_some (d b : ℚ) (st : MouthState)
    (hb : st.baseline = some b) :
    ((detectMouthOpen d st).1).baseline = some b := by
  unfold detectMouthOpen
  simp [hb]

/-- Helper: an established baseline persists across any sample sequence. -/
theorem mouthRun_baseline_some (ds : List ℚ) : ∀ (st : MouthState) (b : ℚ),
    st.baseline = some b → (mouthRun ds st).baseline = some b := by
  induction ds with
  | nil => intro st b hb; simpa [mouthRun] using hb
  | cons d ds ih =>
    intro st b hb
    exact ih _ b (detectMouthOpen_baseline_some d b st hb)

/-- Helper: while the window stays below 10 samples no baseline is set and
the history is the plain accumulation. -/
theorem mouthRun_below_window (l : List ℚ) : ∀ (st : MouthState),
    st.baseline = none → st.history.length + l.length ≤ 9 →
    mouthRun l st = ⟨none, st.history ++ l⟩ := by
  induction l with
  | nil =>
    intro st hb _
    cases st
    simp_all [mouthRun]
  | cons d l ih =>
    intro st hb hl
    have hstep : mouthRun (d :: l) st = mouthRun l ((detectMouthOpen d st).1) :=
      rfl
    have h1 : (detectMouthOpen d st).1 = ⟨none, st.history ++ [d]⟩ := by
      unfold detectMouthOpen
      have hlen : ¬ 10 < st.history.length + 1 := by
        simp at hl
        omega
      have hlen2 : ¬ 10 ≤ st.history.length + 1 := by
        simp at hl
        omega
      simp [hb, hlen, hlen2]
    rw [hstep, h1, ih ⟨none, st.history ++ [d]⟩ rfl
        (by simp only [List.length_append, List.length_singleton]; simp at hl ⊢; omega)]
    simp

/-- Helper: the 10th sample of a fresh window establishes the baseline as the
minimum of the full window. -/
theorem detectMouthOpen_fills (d : ℚ) (st : MouthState)
    (hb : st.baseline = none) (h9 : st.history.length = 9) :
    (detectMouthOpen d st).1 =
      ⟨some (minList (st.history ++ [d])), st.history ++ [d]⟩ := by
  unfold detectMouthOpen
  have hlen : ¬ 10 < st.history.length + 1 := by omega
  have hlen2 : 10 ≤ st.history.length + 1 := by omega
  simp [hb, hlen, hlen2]

/-- Helper: folding the calibration splits over an append. -/
theorem mouthRun_append (a b : List ℚ) (st : MouthState) :
    mouthRun (a ++ b) st = mouthRun b (mouthRun a st) := by
  simp [mouthRun, List.foldl_append]

/-- Helper: from the initial state, any sequence of at least 10 samples ends
with the baseline equal to the minimum of the first 10 samples. -/
theorem mouthRun_baseline_from_start (ds : List ℚ) (hlen : 10 ≤ ds.length) :
    (mouthRun ds mouthInit).baseline = some (minList (ds.take 10)) := by
  have hsplit : ds.take 10 ++ ds.drop 10 = ds := List.take_append_drop 10 ds
  have h10 : (ds.take 10).length = 10 := by
    simpa using Nat.min_eq_left hlen
  rcases (ds.take 10).eq_nil_or_concat with hnil | ⟨l', a, hconcat⟩
  · rw [hnil] at h10
    simp at h10
  · rw [List.concat_eq_append] at hconcat
    have h9 : l'.length = 9 := by
      have := h10
      rw [hconcat] at this
      simpa using this
    have hfirst : mouthRun (ds.take 10) mouthInit =
        ⟨some (minList (ds.take 10)), ds.take 10⟩ := by
      rw [hconcat, mouthRun_append,
        mouthRun_below_window l' mouthInit rfl (by simp [mouthInit, h9])]
      simp only [mouthInit, List.nil_append]
      have hrun : mouthRun [a] (⟨none, l'⟩ : MouthState) =
          (detectMouthOpen a ⟨none, l'⟩).1 := rfl
      rw [hrun, detectMouthOpen_fills a ⟨none, l'⟩ rfl (by simpa using h9)]
    calc (mouthRun ds mouthInit).baseline
        = (mouthRun (ds.take 10 ++ ds.drop 10) mouthInit).baseline := by
          rw [hsplit]
      _ = (mouthRun (ds.drop 10) (mouthRun (ds.take 10) mouthInit)).baseline := by
          rw [mouthRun_append]
      _ = some (minList (ds.take 10)) := by
          rw [hfirst]
          exact mouthRun_baseline_some _ _ _ rfl

/-- Claim C7: the fire-intent detector keeps a rolling window of the last 10
mouth-distance samples; starting from the fresh state, the baseline becomes
the minimum of the first full window and then never changes; with a baseline
`b`, fire-intent is exactly `distance > b * 2.2`, and before a baseline exists
exactly `distance > 0.018`; ten identical samples of `0.01` give baseline
`0.01`, after which `0.03` yields fire-intent true and `0.02` yields false. -/
theorem c7_mouth_calibration :
    (∀ ds : List ℚ, (mouthRun ds mouthInit).history = lastN 10 ds) ∧
    (∀ ds : List ℚ, 10 ≤ ds.length →
      (mouthRun ds mouthInit).baseline = some (minList (ds.take 10))) ∧
    (∀ (d b : ℚ) (st : MouthState), st.baseline = some b →
      (detectMouthOpen d st).2 = decide (b * (22 / 10) < d)) ∧
    (∀ (d : ℚ) (st : MouthState), st.baseline = none →
      st.history.length ≤ 8 →
      (detectMouthOpen d st).2 = decide (18 / 1000 < d)) ∧
    c7base = ⟨some (1 / 100), List.replicate 10 (1 / 100)⟩ ∧
    (detectMouthOpen (3 / 100) c7base).2 = true ∧
    (detectMouthOpen (2 / 100) c7base).2 = false := by
  refine ⟨?_, ?_, ?_, ?_, ?_, ?_, ?_⟩
  · intro ds
    simpa using mouthRun_history ds mouthInit (by simp [mouthInit])
  · exact fun ds h => mouthRun_baseline_from_start ds h
  · intro d b st hb
    unfold detectMouthOpen
    simp [hb]
  · intro d st hb hlen
    unfold detectMouthOpen
    have h1 : ¬ 10 < st.history.length + 1 := by omega
    have h2 : ¬ 10 ≤ st.history.length + 1 := by omega
    simp [hb, h1, h2]
  · norm_num [c7base, mouthRun, mouthInit, detectMouthOpen, minList,
      List.replicate, List.foldl]
  · norm_num [c7base, mouthRun, mouthInit, detectMouthOpen, minList,
      List.replicate, List.foldl]
  · norm_num [c7base, mouthRun, mouthInit, detectMouthOpen, minList,
      List.replicate, List.foldl]

/-- Claim C8: a fire event appends exactly one projectile, at the player's
position, whose velocity has squared magnitude 36 (speed 6) and points from
the player toward the target whenever the target differs from the player
position; the score is decremented by 1 clamped at zero, so it is never
negative and firing at score 0 leaves score 0. -/
theorem c8_fire_event (tx ty : ℝ) (s : GameStateR) :
    (∃ v : ℝ × ℝ,
      (createProjectile tx ty s).projectiles =
        s.projectiles ++
          [{ x := s.player.x, y := s.player.y, radius := 5, color := "#00ff88",
             vx := v.1, vy := v.2 }] ∧
      v.1 ^ 2 + v.2 ^ 2 = 36 ∧
      (¬(tx = s.player.x ∧ ty = s.player.y) →
        ∃ c : ℝ, 0 < c ∧ v.1 = c * (tx - s.player.x) ∧
          v.2 = c * (ty - s.player.y))) ∧
    (createProjectile tx ty s).score = max 0 (s.score - 1) ∧
    0 ≤ (createProjectile tx ty s).score ∧
    (s.score = 0 → (createProjectile tx ty s).score = 0) := by
  refine ⟨⟨(Real.cos (atan2 (ty - s.player.y) (tx - s.player.x)) * 6,
      Real.sin (atan2 (ty - s.player.y) (tx - s.player.x)) * 6),
      rfl, ?_, ?_⟩, rfl, le_max_left 0 _, ?_⟩
  · have h := Real.sin_sq_add_cos_sq (atan2 (ty - s.player.y) (tx - s.player.x))
    show (Real.cos (atan2 (ty - s.player.y) (tx - s.player.x)) * 6) ^ 2 +
        (Real.sin (atan2 (ty - s.player.y) (tx - s.player.x)) * 6) ^ 2 = 36
    nlinarith [h]
  · intro hne
    have hz : (⟨tx - s.player.x, ty - s.player.y⟩ : ℂ) ≠ 0 := by
      intro h0
      rw [Complex.ext_iff] at h0
      simp only [Complex.zero_re, Complex.zero_im] at h0
      exact hne ⟨by linarith [h0.1], by linarith [h0.2]⟩
    have habs : 0 < Complex.abs ⟨tx - s.player.x, ty - s.player.y⟩ :=
      Complex.abs.pos hz
    refine ⟨6 / Complex.abs ⟨tx - s.player.x, ty - s.player.y⟩,
      by positivity, ?_, ?_⟩
    · show Real.cos (atan2 (ty - s.player.y) (tx - s.player.x)) * 6 = _
      rw [atan2, Complex.cos_arg hz]
      field_simp
      ring
    · show Real.sin (atan2 (ty - s.player.y) (tx - s.player.x)) * 6 = _
      rw [atan2, Complex.sin_arg]
      field_simp
      ring
  · intro h0
    show max 0 (s.score - 1) = 0
    rw [h0]
    norm_num

/-- Helper: a complex number given by nonzero coordinates is nonzero. -/
theorem mk_ne_zero_of_re (a b : ℝ) (ha : a ≠ 0) : (⟨a, b⟩ : ℂ) ≠ 0 := by
  intro h0
  rw [Complex.ext_iff] at h0
  simp only [Complex.zero_re, Complex.zero_im] at h0
  exact ha h0.1

/-- Helper: a complex number with nonzero imaginary coordinate is nonzero. -/
theorem mk_ne_zero_of_im (a b : ℝ) (hb : b ≠ 0) : (⟨a, b⟩ : ℂ) ≠ 0 := by
  intro h0
  rw [Complex.ext_iff] at h0
  simp only [Complex.zero_re, Complex.zero_im] at h0
  exact hb h0.2

/-- Helper: the unit vector of `atan2 b a` is a positive multiple of
`(a, b)` when `(a, b)` is nonzero. -/
theorem atan2_unit_dir (a b : ℝ) (hz : (⟨a, b⟩ : ℂ) ≠ 0) :
    ∃ c : ℝ, 0 < c ∧ Real.cos (atan2 b a) * 1 = c * a ∧
      Real.sin (atan2 b a) * 1 = c * b := by
  have habs : 0 < Complex.abs ⟨a, b⟩ := Complex.abs.pos hz
  refine ⟨1 / Complex.abs ⟨a, b⟩, by positivity, ?_, ?_⟩
  · rw [atan2, Complex.cos_arg hz]
    field_simp
  · rw [atan2, Complex.sin_arg]
    field_simp

/-- Claim C9: a spawned enemy has radius in `[10, 30)` (for its uniform draw
in `[0, 1)`), sits on one of the four viewport edges offset outward by its own
radius, and its velocity has squared magnitude 1 and is a positive multiple of
the vector from the spawn point to the viewport centre; the spawn-interval
table is strictly decreasing over levels 1..9 with the 400 fallback outside
the table. -/
theorem c9_spawn_enemy (u1 u2 u3 u4 uh w h : ℝ) :
    (0 ≤ u1 → u1 < 1 →
      10 ≤ (spawnEnemy u1 u2 u3 u4 uh w h).radius ∧
      (spawnEnemy u1 u2 u3 u4 uh w h).radius < 30) ∧
    ((spawnEnemy u1 u2 u3 u4 uh w h).x = -(spawnEnemy u1 u2 u3 u4 uh w h).radius ∨
      (spawnEnemy u1 u2 u3 u4 uh w h).x = w + (spawnEnemy u1 u2 u3 u4 uh w h).radius ∨
      (spawnEnemy u1 u2 u3 u4 uh w h).y = -(spawnEnemy u1 u2 u3 u4 uh w h).radius ∨
      (spawnEnemy u1 u2 u3 u4 uh w h).y = h + (spawnEnemy u1 u2 u3 u4 uh w h).radius) ∧
    (spawnEnemy u1 u2 u3 u4 uh w h).vx ^ 2 +
      (spawnEnemy u1 u2 u3 u4 uh w h).vy ^ 2 = 1 ∧
    (0 ≤ u1 → 0 ≤ w → 0 ≤ h →
      ∃ c : ℝ, 0 < c ∧
        (spawnEnemy u1 u2 u3 u4 uh w h).vx =
          c * (w / 2 - (spawnEnemy u1 u2 u3 u4 uh w h).x) ∧
        (spawnEnemy u1 u2 u3 u4 uh w h).vy =
          c * (h / 2 - (spawnEnemy u1 u2 u3 u4 uh w h).y)) ∧
    (∀ l1 l2 : ℤ, 1 ≤ l1 → l1 < l2 → l2 ≤ 9 →
      spawnInterval l2 < spawnInterval l1) ∧
    (∀ l : ℤ, l < 1 ∨ 9 < l → spawnInterval l = 400) := by
  have hr : (spawnEnemy u1 u2 u3 u4 uh w h).radius = u1 * 20 + 10 := rfl
  have hx : (spawnEnemy u1 u2 u3 u4 uh w h).x =
      (if u2 < 1 / 2 then (if u3 < 1 / 2 then -(u1 * 20 + 10)
        else w + (u1 * 20 + 10)) else u3 * w) := rfl
  have hy : (spawnEnemy u1 u2 u3 u4 uh w h).y =
      (if u2 < 1 / 2 then u4 * h else (if u4 < 1 / 2 then -(u1 * 20 + 10)
        else h + (u1 * 20 + 10))) := rfl
  have hvx : (spawnEnemy u1 u2 u3 u4 uh w h).vx =
      Real.cos (atan2 (h / 2 - (spawnEnemy u1 u2 u3 u4 uh w h).y)
        (w / 2 - (spawnEnemy u1 u2 u3 u4 uh w h).x)) * 1 := rfl
  have hvy : (spawnEnemy u1 u2 u3 u4 uh w h).vy =
      Real.sin (atan2 (h / 2 - (spawnEnemy u1 u2 u3 u4 uh w h).y)
        (w / 2 - (spawnEnemy u1 u2 u3 u4 uh w h).x)) * 1 := rfl
  refine ⟨?_, ?_, ?_, ?_, ?_, ?_⟩
  · intro h0 h1
    rw [hr]
    constructor
    · nlinarith
    · nlinarith
  · rw [hx, hy, hr]
    by_cases h2 : u2 < 1 / 2
    · by_cases h3 : u3 < 1 / 2
      · left
        rw [if_pos h2, if_pos h3]
      · right; left
        rw [if_pos h2, if_neg h3]
    · by_cases h4 : u4 < 1 / 2
      · right; right; left
        rw [if_neg h2, if_pos h4]
      · right; right; right
        rw [if_neg h2, if_neg h4]
  · rw [hvx, hvy]
    have hgen : ∀ t : ℝ, (Real.cos t * 1) ^ 2 + (Real.sin t * 1) ^ 2 = 1 := by
      intro t
      have := Real.sin_sq_add_cos_sq t
      nlinarith
    exact hgen _
  · intro hu1 hw hh
    rw [hvx, hvy]
    apply atan2_unit_dir
    by_cases h2 : u2 < 1 / 2
    · by_cases h3 : u3 < 1 / 2
      · apply mk_ne_zero_of_re
        rw [hx, if_pos h2, if_pos h3]
        have hpos : (0 : ℝ) < w / 2 - -(u1 * 20 + 10) := by nlinarith
        exact ne_of_gt hpos
      · apply mk_ne_zero_of_re
        rw [hx, if_pos h2, if_neg h3]
        have hneg : w / 2 - (w + (u1 * 20 + 10)) < 0 := by nlinarith
        exact ne_of_lt hneg
    · by_cases h4 : u4 < 1 / 2
      · apply mk_ne_zero_of_im
        rw [hy, if_neg h2, if_pos h4]
        have hpos : (0 : ℝ) < h / 2 - -(u1 * 20 + 10) := by nlinarith
        exact ne_of_gt hpos
      · apply mk_ne_zero_of_im
        rw [hy, if_neg h2, if_neg h4]
        have hneg : h / 2 - (h + (u1 * 20 + 10)) < 0 := by nlinarith
        exact ne_of_lt hneg
  · intro l1 l2 hl1 hlt hl2
    have hl1u : l1 ≤ 8 := by omega
    have hl2l : 2 ≤ l2 := by omega
    interval_cases l1 <;> interval_cases l2 <;> norm_num [spawnInterval]
  · intro l hl
    have h1 : l ≠ 1 := by rcases hl with hl | hl <;> omega
    have h2 : l ≠ 2 := by rcases hl with hl | hl <;> omega
    have h3 : l ≠ 3 := by rcases hl with hl | hl <;> omega
    have h4 : l ≠ 4 := by rcases hl with hl | hl <;> omega
    have h5 : l ≠ 5 := by rcases hl with hl | hl <;> omega
    have h6 : l ≠ 6 := by rcases hl with hl | hl <;> omega
    have h7 : l ≠ 7 := by rcases hl with hl | hl <;> omega
    have h8 : l ≠ 8 := by rcases hl with hl | hl <;> omega
    have h9 : l ≠ 9 := by rcases hl with hl | hl <;> omega
    simp [spawnInterval, h1, h2, h3, h4, h5, h6, h7, h8, h9]
